import Mathlib

/-!
Verification of the salto workspace / merger specification.

The development shallowly embeds the program:
* the element data model and the merger (`mergeElements`) are modelled from the
  spec (sections 3 and 4.1), because the merger implementation itself is not
  part of the provided sources (only its test suite is);
* the workspace coordinator (`src/packages/salto/src/workspace/workspace.ts`),
  the CLI formatter (`src/unnamed/part_001`) and the change accessor
  (`src/unnamed/part_000`) are embedded from the source code directly.

Maps that in TypeScript are plain objects are embedded as association lists
`List (String × _)`.  Promises and file I/O are embedded as explicit lists of
file operations.  JavaScript numbers that only ever hold integral millisecond
counts are embedded as `Nat`.
-/

/-- Modelled from the spec (section 3.1, and the `adapter-api` `ElemID` class
which is outside the provided sources): an ordered tuple
`(adapter, type-name, id-type, ...name-parts)`. -/
structure ElemID where
  adapter : String
  typeName : String
  idType : String
  nameParts : List String
deriving DecidableEq

/-- Modelled from the spec: the reserved adapter of the variable namespace. -/
def variablesNamespace : String := "var"

/-- Modelled from the spec: `full_name` is the canonical dotted string.  The
default id-types `type` and `var` are not printed (the tests expect
`var.varName` for a variable and `salto.base` for a type), and empty components
are skipped. -/
def ElemID.getFullName (id : ElemID) : String :=
  String.intercalate "."
    ((([id.adapter, id.typeName]
      ++ (if id.idType == "type" || id.idType == "var" then [] else [id.idType]))
      ++ id.nameParts).filter (fun s => s ≠ ""))

/-- Modelled from the spec: the last name part (or the type name when there are
no name parts). -/
def ElemID.name (id : ElemID) : String :=
  id.nameParts.getLastD id.typeName

/-- Modelled from the spec (`is_config` in section 3.1): a config element is
named by the reserved name `_config`. -/
def ElemID.isConfig (id : ElemID) : Bool :=
  id.name == "_config"

/-- The ElemID of a field `n` nested under the object id `k`. -/
def fieldChildID (k : ElemID) (n : String) : ElemID :=
  { k with idType := "field", nameParts := k.nameParts ++ [n] }

/-- The ElemID of an attribute (annotation key) `n` nested under `k`. -/
def attrChildID (k : ElemID) (n : String) : ElemID :=
  { k with idType := "attr", nameParts := k.nameParts ++ [n] }

/-- The ElemID of a nested value key `n` under an instance id `k`. -/
def valueChildID (k : ElemID) (n : String) : ElemID :=
  { k with nameParts := k.nameParts ++ [n] }

/-- The ElemID of the type of the instances named by `k`. -/
def instTypeID (k : ElemID) : ElemID :=
  { adapter := k.adapter, typeName := k.typeName, idType := "type", nameParts := [] }

/-- Flattening an ElemID to its tuple of components; used only to order keys
canonically. -/
def ElemID.flatten (id : ElemID) : List String :=
  id.adapter :: id.typeName :: id.idType :: id.nameParts

/-- Modelled from the spec (section 3.2): a `Value` is a tagged union of
primitives, lists, maps and reference expressions. -/
inductive Value where
  | null
  | bool (b : Bool)
  | num (n : Int)
  | str (s : String)
  | list (items : List Value)
  | map (entries : List (String × Value))
  | ref (traversal : String)

mutual

def Value.deq : (a b : Value) → Decidable (a = b)
  | .null, .null => isTrue rfl
  | .null, .bool _ => isFalse nofun
  | .null, .num _ => isFalse nofun
  | .null, .str _ => isFalse nofun
  | .null, .list _ => isFalse nofun
  | .null, .map _ => isFalse nofun
  | .null, .ref _ => isFalse nofun
  | .bool _, .null => isFalse nofun
  | .bool a, .bool b =>
    if h : a = b then isTrue (h ▸ rfl) else isFalse (fun hh => h (by injection hh))
  | .bool _, .num _ => isFalse nofun
  | .bool _, .str _ => isFalse nofun
  | .bool _, .list _ => isFalse nofun
  | .bool _, .map _ => isFalse nofun
  | .bool _, .ref _ => isFalse nofun
  | .num _, .null => isFalse nofun
  | .num _, .bool _ => isFalse nofun
  | .num a, .num b =>
    if h : a = b then isTrue (h ▸ rfl) else isFalse (fun hh => h (by injection hh))
  | .num _, .str _ => isFalse nofun
  | .num _, .list _ => isFalse nofun
  | .num _, .map _ => isFalse nofun
  | .num _, .ref _ => isFalse nofun
  | .str _, .null => isFalse nofun
  | .str _, .bool _ => isFalse nofun
  | .str _, .num _ => isFalse nofun
  | .str a, .str b =>
    if h : a = b then isTrue (h ▸ rfl) else isFalse (fun hh => h (by injection hh))
  | .str _, .list _ => isFalse nofun
  | .str _, .map _ => isFalse nofun
  | .str _, .ref _ => isFalse nofun
  | .list _, .null => isFalse nofun
  | .list _, .bool _ => isFalse nofun
  | .list _, .num _ => isFalse nofun
  | .list _, .str _ => isFalse nofun
  | .list as, .list bs =>
    match Value.deqList as bs with
    | isTrue h => isTrue (h ▸ rfl)
    | isFalse h => isFalse (fun hh => h (by injection hh))
  | .list _, .map _ => isFalse nofun
  | .list _, .ref _ => isFalse nofun
  | .map _, .null => isFalse nofun
  | .map _, .bool _ => isFalse nofun
  | .map _, .num _ => isFalse nofun
  | .map _, .str _ => isFalse nofun
  | .map _, .list _ => isFalse nofun
  | .map as, .map bs =>
    match Value.deqEntries as bs with
    | isTrue h => isTrue (h ▸ rfl)
    | isFalse h => isFalse (fun hh => h (by injection hh))
  | .map _, .ref _ => isFalse nofun
  | .ref _, .null => isFalse nofun
  | .ref _, .bool _ => isFalse nofun
  | .ref _, .num _ => isFalse nofun
  | .ref _, .str _ => isFalse nofun
  | .ref _, .list _ => isFalse nofun
  | .ref _, .map _ => isFalse nofun
  | .ref a, .ref b =>
    if h : a = b then isTrue (h ▸ rfl) else isFalse (fun hh => h (by injection hh))

def Value.deqList : (a b : List Value) → Decidable (a = b)
  | [], [] => isTrue rfl
  | [], _ :: _ => isFalse nofun
  | _ :: _, [] => isFalse nofun
  | x :: xs, y :: ys =>
    match Value.deq x y, Value.deqList xs ys with
    | isTrue h1, isTrue h2 => isTrue (h1 ▸ h2 ▸ rfl)
    | isFalse h1, _ => isFalse (fun hh => h1 (by injection hh))
    | _, isFalse h2 => isFalse (fun hh => h2 (by injection hh))

def Value.deqEntries : (a b : List (String × Value)) → Decidable (a = b)
  | [], [] => isTrue rfl
  | [], _ :: _ => isFalse nofun
  | _ :: _, [] => isFalse nofun
  | (k1, v1) :: xs, (k2, v2) :: ys =>
    if hk : k1 = k2 then
      match Value.deq v1 v2, Value.deqEntries xs ys with
      | isTrue h1, isTrue h2 => isTrue (by rw [hk, h1, h2])
      | isFalse h1, _ =>
        isFalse (fun hh => by injection hh with h3 h4; exact h1 (congrArg Prod.snd h3))
      | _, isFalse h2 =>
        isFalse (fun hh => by injection hh with h3 h4; exact h2 h4)
    else
      isFalse (fun hh => by injection hh with h3 h4; exact hk (congrArg Prod.fst h3))

end

instance : DecidableEq Value := Value.deq

/-- Modelled from the spec (section 3.2): a `TypeRef` names a type by ElemID
and, when the concrete type is known at parse time, carries that type's
annotation map (used for `DEFAULT` lookup during default injection). -/
structure TypeRef where
  id : ElemID
  annotations : List (String × Value)
deriving DecidableEq

/-- Modelled from the spec (section 3.2): a field of an object type. -/
structure FieldDef where
  ftype : TypeRef
  annotations : List (String × Value)
deriving DecidableEq

/-- Modelled from the spec: the type of an instance element, with the field map
needed for default injection. -/
structure InstTypeRef where
  id : ElemID
  fields : List (String × FieldDef)
deriving DecidableEq

/-- Modelled from the spec (section 3.2): primitive kinds. -/
inductive PrimKind where
  | string
  | number
  | boolean
deriving DecidableEq

/-- Modelled from the spec (section 3.2): the tagged element variants. -/
inductive Element where
  | primitiveType (elemID : ElemID) (prim : PrimKind)
      (annotations : List (String × Value)) (annotationTypes : List (String × TypeRef))
  | objectType (elemID : ElemID) (fields : List (String × FieldDef))
      (annotations : List (String × Value)) (annotationTypes : List (String × TypeRef))
      (isSettings : Bool)
  | instanceElement (elemID : ElemID) (itype : InstTypeRef)
      (value : List (String × Value)) (annotations : List (String × Value))
  | var (elemID : ElemID) (value : Value)
deriving DecidableEq

/-- The ElemID of any element. -/
def Element.elemID : Element → ElemID
  | .primitiveType k _ _ _ => k
  | .objectType k _ _ _ _ => k
  | .instanceElement k _ _ _ => k
  | .var k _ => k

/-- The data of an object-type declaration, without its id. -/
structure ObjData where
  fields : List (String × FieldDef)
  annotations : List (String × Value)
  annotationTypes : List (String × TypeRef)
  isSettings : Bool
deriving DecidableEq

/-- The data of a primitive-type declaration, without its id. -/
structure PrimData where
  prim : PrimKind
  annotations : List (String × Value)
  annotationTypes : List (String × TypeRef)
deriving DecidableEq

/-- The data of an instance declaration, without its id. -/
structure InstData where
  itype : InstTypeRef
  value : List (String × Value)
  annotations : List (String × Value)
deriving DecidableEq

def Element.asObject : Element → Option ObjData
  | .objectType _ f a at_ s => some ⟨f, a, at_, s⟩
  | _ => none

def Element.asPrimitive : Element → Option PrimData
  | .primitiveType _ p a at_ => some ⟨p, a, at_⟩
  | _ => none

def Element.asInstance : Element → Option InstData
  | .instanceElement _ t v a => some ⟨t, v, a⟩
  | _ => none

def Element.asVariable : Element → Option Value
  | .var _ v => some v
  | _ => none

/-- Modelled from the spec (section 7 and the error table of section 4.1.1):
the merge-failure kinds. -/
inductive MergeErrorKind where
  | noBaseDefinition
  | multipleBaseDefinitions
  | duplicateAnnoFieldDefinition
  | duplicateAnnoType
  | duplicateAnno
  | duplicateInstanceKey
  | multiplePrimitiveTypesUnsupported
  | duplicateVariableName
deriving DecidableEq

/-- Modelled from the spec (section 7): a structural merge failure carries the
offending ElemID and a pre-formatted reason string. -/
structure MergeError where
  kind : MergeErrorKind
  elemID : ElemID
  error : String
deriving DecidableEq

/-- Modelled from the spec (section 7): the message of a merge error is
`Error merging <full_name>: <reason>`. -/
def MergeError.message (e : MergeError) : String :=
  "Error merging " ++ e.elemID.getFullName ++ ": " ++ e.error

/-- Modelled from the spec (section 7): stringifying a merge error yields its
message. -/
def MergeError.toString (e : MergeError) : String :=
  e.message

def mkMergeError (kind : MergeErrorKind) (k : ElemID) (reason : String) : MergeError :=
  ⟨kind, k, reason⟩

/-! ### Canonical key ordering

The spec (section 4.1 and design note on order-independence) requires the
merger to gather contributions by ElemID and produce an output that does not
depend on the input order; keys are therefore processed in a canonical sorted
order. -/

/-- Strict lexicographic order on lists, lifted from a strict comparator on
the elements. -/
def lexLt {α : Type} (lt : α → α → Bool) : List α → List α → Bool
  | [], [] => false
  | [], _ :: _ => true
  | _ :: _, [] => false
  | a :: as, b :: bs => if lt a b then true else if lt b a then false else lexLt lt as bs

/-- Strict order on characters by code point. -/
def charLtB (a b : Char) : Bool :=
  a.toNat < b.toNat

/-- Strict lexicographic order on strings. -/
def strLtB (a b : String) : Bool :=
  lexLt charLtB a.data b.data

/-- Strict lexicographic order on lists of strings. -/
def strListLtB (a b : List String) : Bool :=
  lexLt strLtB a b

/-- Total order on strings used to sort keys canonically. -/
def strLe (a b : String) : Prop :=
  strLtB b a = false

instance : DecidableRel strLe := fun a b =>
  inferInstanceAs (Decidable (strLtB b a = false))

/-- Sorted duplicate-free list of strings. -/
def sortedDedupStr (l : List String) : List String :=
  l.dedup.insertionSort strLe

/-- The canonical order on ElemIDs: lexicographic on the flattened tuple. -/
def idLe (a b : ElemID) : Prop :=
  strListLtB b.flatten a.flatten = false

instance : DecidableRel idLe := fun a b =>
  inferInstanceAs (Decidable (strListLtB b.flatten a.flatten = false))

/-- Sorted duplicate-free list of ElemIDs. -/
def sortedDedupIds (l : List ElemID) : List ElemID :=
  l.dedup.insertionSort idLe

/-! ### The merger, modelled from the spec (section 4.1) -/

/-- Association-list lookup (first entry wins, as for JS object access). -/
def lookupVal {α : Type} (key : String) (m : List (String × α)) : Option α :=
  (m.find? (fun kv => kv.1 == key)).map (·.2)

/-- Whether the key is present in the association list. -/
def hasKey {α : Type} (key : String) (m : List (String × α)) : Bool :=
  m.any (fun kv => kv.1 == key)

/-- Modelled from the spec (section 4.1.1): the reserved update-marker type is
an ElemID whose name parts end with the keyword `update`. -/
def isUpdateMarker (t : TypeRef) : Bool :=
  t.id.nameParts.getLastD t.id.typeName == "update"

/-- Modelled from the spec (sections 4.1.1 and the design note on the empty
declaration): a declaration is a base unless every field it declares carries
the update-marker type; a declaration with no fields (annotation-only) is an
update. -/
def ObjData.isBase (o : ObjData) : Bool :=
  o.fields.any (fun nf => !(isUpdateMarker nf.2.ftype))

/-- Modelled from the spec (section 4.1.2 steps 2-3): union the update
contributions into the base map.  A key contributed by more than one update
produces the given duplicate error; base entries for keys that a single update
contributes are overridden (the tests merge `label: base` with `label: update1`
into `label: update1` with no error).  Keys are processed in canonical sorted
order so that the result does not depend on the contribution order. -/
def combineAnnos {α : Type} (baseA : List (String × α)) (updEntries : List (String × α))
    (mkErr : String → MergeError) : List (String × α) × List MergeError :=
  let updKeys := sortedDedupStr (updEntries.map (·.1))
  let dups := updKeys.filter (fun key => 2 ≤ (updEntries.map (·.1)).count key)
  let merged :=
    baseA.filter (fun kv => !(updKeys.contains kv.1))
      ++ updKeys.filterMap (fun key =>
          match (updEntries.filter (fun kv => kv.1 == key)).map (·.2) with
          | [v] => some (key, v)
          | _ => none)
  (merged, dups.map mkErr)

def Value.isMap : Value → Bool
  | .map _ => true
  | _ => false

def Value.entriesOf : Value → List (String × Value)
  | .map es => es
  | _ => []

/-- Modelled from the spec (section 4.1.3): n-way merge of the value maps of
all instances sharing an ElemID.  Keys are processed in canonical order; a key
contributed once is kept, a key whose contributions are all maps is deep-merged
recursively, and any other collision produces the given duplicate error and
drops the key.  The `fuel` argument bounds the nesting depth (callers pass the
total size of the entries, which always suffices). -/
def nMergeValues (kind : MergeErrorKind) : Nat → ElemID → List (String × Value) →
    List (String × Value) × List MergeError
  | 0, _, _ => ([], [])
  | fuel + 1, parent, entries =>
    let keys := sortedDedupStr (entries.map (·.1))
    keys.foldr (fun key acc =>
      let vs := (entries.filter (fun e => e.1 == key)).map (·.2)
      match vs with
      | [] => acc
      | [v] => ((key, v) :: acc.1, acc.2)
      | _ =>
        if vs.all Value.isMap then
          let inner := (vs.map Value.entriesOf).flatten
          let innerRes := nMergeValues kind fuel (valueChildID parent key) inner
          ((key, Value.map innerRes.1) :: acc.1, innerRes.2 ++ acc.2)
        else
          (acc.1, mkMergeError kind (valueChildID parent key)
            ("duplicate key '" ++ key ++ "'") :: acc.2))
      ([], [])

mutual

/-- The size of a value, used to compute sufficient fuel for `nMergeValues`. -/
def Value.vsize : Value → Nat
  | .list items => 1 + Value.vsizeList items
  | .map es => 1 + Value.vsizeEntries es
  | _ => 1

def Value.vsizeList : List Value → Nat
  | [] => 0
  | v :: vs => Value.vsize v + Value.vsizeList vs

def Value.vsizeEntries : List (String × Value) → Nat
  | [] => 0
  | e :: es => Value.vsize e.2 + Value.vsizeEntries es

end

/-- Fuel sufficient for the n-way merge of the given entries. -/
def entriesFuel (entries : List (String × Value)) : Nat :=
  (entries.map (fun e => Value.vsize e.2)).sum + 1

def nMergeTop (kind : MergeErrorKind) (parent : ElemID) (entries : List (String × Value)) :
    List (String × Value) × List MergeError :=
  nMergeValues kind (entriesFuel entries) parent entries

/-- Modelled from the spec (sections 4.1.4 and I4): the default of a field is
its own `_default` annotation when present, otherwise the `_default` annotation
of its declared type. -/
def fieldDefault (f : FieldDef) : Option Value :=
  match lookupVal "_default" f.annotations with
  | some v => some v
  | none => lookupVal "_default" f.ftype.annotations

/-- Modelled from the spec (section 4.1.4): after the raw merge, each field of
the instance's type that is missing from the value receives its default (when
one exists); present keys are kept untouched. -/
def applyDefaults (tfields : List (String × FieldDef)) (value : List (String × Value)) :
    List (String × Value) :=
  value ++ tfields.filterMap (fun nf =>
    if hasKey nf.1 value then none
    else (fieldDefault nf.2).map (fun d => (nf.1, d)))

/-- Modelled from the spec (section 4.1.3): merge all instances sharing an
ElemID: n-way merge the value maps and the annotation maps, then inject
defaults from the (common) instance type.  When the contributed types disagree,
no defaults are injected. -/
def mergeInstGroup (k : ElemID) (insts : List InstData) : Option Element × List MergeError :=
  let vres := nMergeTop .duplicateInstanceKey k (insts.flatMap (·.value))
  let ares := nMergeTop .duplicateAnno k (insts.flatMap (·.annotations))
  let t :=
    match (insts.map (·.itype)).dedup with
    | [t] => t
    | _ => ({ id := instTypeID k, fields := [] } : InstTypeRef)
  (some (.instanceElement k t (applyDefaults t.fields vres.1) ares.1), vres.2 ++ ares.2)

/-- Modelled from the spec (section 4.1.2 step 2): merge one base field with
the update contributions naming it.  The field keeps the base's declared type
(updates carry only the marker type); update annotation contributions override
the base's per key, duplicates among updates producing the field-definition
error. -/
def mergeFieldDef (k : ElemID) (updFieldEntries : List (String × FieldDef))
    (nf : String × FieldDef) : (String × FieldDef) × List MergeError :=
  let contribs := (updFieldEntries.filter (fun e => e.1 == nf.1)).map (·.2)
  let ares := combineAnnos nf.2.annotations (contribs.flatMap (·.annotations))
    (fun key => mkMergeError .duplicateAnnoFieldDefinition (fieldChildID k nf.1)
      ("duplicate annotation '" ++ key ++ "' on field '" ++ nf.1 ++ "'"))
  ((nf.1, ({ ftype := nf.2.ftype, annotations := ares.1 } : FieldDef)), ares.2)

/-- Modelled from the spec (section 4.1.2): merge the unique base declaration
with the update contributions.  An update naming a field absent from the base
produces `NoBaseDefinitionMergeError` (per spec scenario 2, the object is then
not merged). -/
def mergeWithUpdates (k : ElemID) (b : ObjData) (updates : List ObjData) :
    Option Element × List MergeError :=
  let updFieldEntries := updates.flatMap (·.fields)
  let baseNames := b.fields.map (·.1)
  let missing := (sortedDedupStr (updFieldEntries.map (·.1))).filter
    (fun n => !(baseNames.contains n))
  let missingErrs := missing.map (fun n =>
    mkMergeError .noBaseDefinition (fieldChildID k n)
      ("Cannot merge '" ++ k.getFullName ++ "': field '" ++ n ++ "' has no base definition"))
  let fieldResults := b.fields.map (mergeFieldDef k updFieldEntries)
  let ares := combineAnnos b.annotations (updates.flatMap (·.annotations))
    (fun key => mkMergeError .duplicateAnno (attrChildID k key)
      ("duplicate annotation '" ++ key ++ "'"))
  let atres := combineAnnos b.annotationTypes (updates.flatMap (·.annotationTypes))
    (fun key => mkMergeError .duplicateAnnoType (attrChildID k key)
      ("duplicate annotation type '" ++ key ++ "'"))
  (if missing.isEmpty then
      some (.objectType k (fieldResults.map (·.1)) ares.1 atres.1 b.isSettings)
    else none,
   missingErrs ++ fieldResults.flatMap (·.2) ++ ares.2 ++ atres.2)

/-- Modelled from the spec (sections 4.1.1-4.1.2): classify the object
declarations sharing an ElemID into base and updates and merge them.  Zero
bases produce `NoBaseDefinitionMergeError`; more than one base produces
`MultipleBaseDefinitionsMergeError` (pointing at each field with several base
definitions, as the tests expect). -/
def mergeObjectGroup (k : ElemID) (objs : List ObjData) : Option Element × List MergeError :=
  let bases := objs.filter ObjData.isBase
  let updates := objs.filter (fun o => !o.isBase)
  match bases with
  | [] =>
    (none, [mkMergeError .noBaseDefinition k
      ("Cannot merge '" ++ k.getFullName ++ "': no base definition")])
  | [b] =>
    if updates.isEmpty then
      (some (.objectType k b.fields b.annotations b.annotationTypes b.isSettings), [])
    else mergeWithUpdates k b updates
  | _ =>
    let allBaseFieldNames := bases.flatMap (fun o => o.fields.map (·.1))
    let dupNames := (sortedDedupStr allBaseFieldNames).filter
      (fun n => 2 ≤ allBaseFieldNames.count n)
    (none,
     if dupNames.isEmpty then
       [mkMergeError .multipleBaseDefinitions k
         ("Cannot merge '" ++ k.getFullName ++ "': multiple base definitions")]
     else dupNames.map (fun n =>
       mkMergeError .multipleBaseDefinitions (fieldChildID k n)
         ("Cannot merge '" ++ k.getFullName ++ "': field '" ++ n ++ "' has multiple definitions")))

/-- Modelled from the spec (section 4.1): merge one ElemID group.  Type-like
declarations (objects, then primitives, then variables) produce at most one
merged element; primitives and variables sharing an ElemID are rejected
(sections 4.1.1 and 4.1.5).  Instances of the id are merged independently; the
group contributes at most one output element. -/
def mergeTypePart (k : ElemID) (objs : List ObjData) (prims : List PrimData)
    (vars : List Value) : Option Element × List MergeError :=
  if objs.isEmpty then
    if prims.isEmpty then
      match vars with
      | [] => (none, [])
      | [v] => (some (.var k v), [])
      | _ => (none, [mkMergeError .duplicateVariableName k
          ("Duplicated variable " ++ k.getFullName)])
    else
      match prims with
      | [p] => (some (.primitiveType k p.prim p.annotations p.annotationTypes), [])
      | _ => (none, [mkMergeError .multiplePrimitiveTypesUnsupported k
          ("Merging for primitive types is not supported: " ++ k.getFullName)])
  else mergeObjectGroup k objs

def mergeGroup (k : ElemID) (g : List Element) : Option Element × List MergeError :=
  let typeRes := mergeTypePart k (g.filterMap Element.asObject)
    (g.filterMap Element.asPrimitive) (g.filterMap Element.asVariable)
  let instRes : Option Element × List MergeError :=
    if (g.filterMap Element.asInstance).isEmpty then (none, [])
    else mergeInstGroup k (g.filterMap Element.asInstance)
  (typeRes.1 <|> instRes.1, typeRes.2 ++ instRes.2)

/-- Modelled from the spec (section 4.1): the merge result. -/
structure MergeResult where
  merged : List Element
  errors : List MergeError
deriving DecidableEq

/-- Modelled from the spec (section 4.1 and the order-independence design
note): gather the input by ElemID (keys in canonical order) and fold each group
by the classification rules. -/
def mergeElements (elements : List Element) : MergeResult :=
  let keys := sortedDedupIds (elements.map Element.elemID)
  let results := keys.map (fun k => mergeGroup k (elements.filter (fun e => e.elemID == k)))
  { merged := results.filterMap (·.1), errors := results.flatMap (·.2) }

/-! ### Model validation against the merger test suite

The following concrete evaluations mirror `src/packages/core/test/merger.test.ts`
and check that the spec-modelled merger behaves as those tests expect. -/

namespace MergerFixtures

def strRef : TypeRef := ⟨⟨"", "string", "type", []⟩, []⟩

def updateRef : TypeRef := ⟨⟨"", "update", "type", []⟩, []⟩

def listStrRef : TypeRef := ⟨⟨"", "list<string>", "type", []⟩, []⟩

def baseID : ElemID := ⟨"salto", "base", "type", []⟩

def unrelatedID : ElemID := ⟨"salto", "unrelated", "type", []⟩

def baseObj : Element :=
  .objectType baseID
    [("field1", ⟨strRef, [("label", .str "base")]⟩),
     ("field2", ⟨strRef, [("label", .str "base")]⟩)]
    [("_default", .map [("field1", .str "base1"), ("field2", .str "base2")])]
    [] false

def unrelatedObj : Element :=
  .objectType unrelatedID
    [("field1", ⟨strRef, [("label", .str "base")]⟩)]
    [] [] false

def update1 : Element :=
  .objectType baseID [("field1", ⟨updateRef, [("label", .str "update1")]⟩)] [] [] false

def update2 : Element :=
  .objectType baseID [("field2", ⟨updateRef, [("label", .str "update2")]⟩)] [] [] false

def updateAnno : Element :=
  .objectType baseID [] [] [("anno1", strRef)] false

def multipleUpdateAnno : Element :=
  .objectType baseID [] [] [("anno1", strRef)] false

def updateAnnoValues : Element :=
  .objectType baseID [] [("anno1", .str "updated")] [] false

def multipleUpdateAnnoValues : Element :=
  .objectType baseID [] [("anno1", .str "updated")] [] false

def multipleUpdate1 : Element :=
  .objectType baseID [("field1", ⟨updateRef, [("label", .str "update1")]⟩)] [] [] false

def missingUpdate : Element :=
  .objectType baseID [("field3", ⟨updateRef, [("label", .str "update3")]⟩)] [] [] false

def multipleBase : Element :=
  .objectType baseID [("field1", ⟨listStrRef, [("label", .str "base")]⟩)] [] [] false

def mergedObject : Element :=
  .objectType baseID
    [("field1", ⟨strRef, [("label", .str "update1")]⟩),
     ("field2", ⟨strRef, [("label", .str "update2")]⟩)]
    [("_default", .map [("field1", .str "base1"), ("field2", .str "base2")]),
     ("anno1", .str "updated")]
    [("anno1", strRef)] false

end MergerFixtures

open MergerFixtures in
theorem modelTest_noUpdates :
    (mergeElements [baseObj, unrelatedObj]).errors = []
    ∧ (mergeElements [baseObj, unrelatedObj]).merged.length = 2 := by
  decide

open MergerFixtures in
theorem modelTest_mergesUpdateBlocks :
    (mergeElements [baseObj, unrelatedObj, update1, update2, updateAnno, updateAnnoValues]).errors
      = []
    ∧ (mergeElements [baseObj, unrelatedObj, update1, update2, updateAnno,
        updateAnnoValues]).merged
      = [mergedObject, unrelatedObj] := by
  decide

open MergerFixtures in
theorem modelTest_orderIndependent :
    mergeElements [update1, updateAnno, baseObj, unrelatedObj, update2, updateAnnoValues]
      = mergeElements [baseObj, unrelatedObj, update1, update2, updateAnno, updateAnnoValues] := by
  decide

open MergerFixtures in
theorem modelTest_multipleUpdatesSameField :
    ((mergeElements [baseObj, update1, multipleUpdate1]).errors.map (·.kind))
      = [.duplicateAnnoFieldDefinition] := by
  decide

open MergerFixtures in
theorem modelTest_missingBaseField :
    ((mergeElements [baseObj, missingUpdate]).errors.map (·.kind)) = [.noBaseDefinition] := by
  decide

open MergerFixtures in
theorem modelTest_multipleUpdatesSameAnnoType :
    ((mergeElements [baseObj, updateAnno, multipleUpdateAnno]).errors.map (·.kind))
      = [.duplicateAnnoType] := by
  decide

open MergerFixtures in
theorem modelTest_multipleUpdatesSameAnnoValue :
    ((mergeElements [baseObj, updateAnnoValues, multipleUpdateAnnoValues]).errors.map (·.kind))
      = [.duplicateAnno] := by
  decide

open MergerFixtures in
theorem modelTest_multipleBaseDefinitions :
    ((mergeElements [baseObj, multipleBase]).errors.map (·.kind)) = [.multipleBaseDefinitions]
    ∧ ((mergeElements [baseObj, multipleBase]).errors.map (·.message))
      = ["Error merging salto.base.field.field1: Cannot merge 'salto.base': " ++
         "field 'field1' has multiple definitions"] := by
  decide

namespace MergerFixtures

def strTypeID : ElemID := ⟨"salto", "string", "type", []⟩

def strTypeElem : Element :=
  .primitiveType strTypeID .string [("_default", .str "type")] []

def duplicateTypeElem : Element :=
  .primitiveType strTypeID .string [("_default", .str "type")] []

def strTypeRef : TypeRef := ⟨strTypeID, [("_default", .str "type")]⟩

def baseTypeRef : TypeRef :=
  ⟨baseID, [("_default", .map [("field1", .str "base1"), ("field2", .str "base2")])]⟩

def nestedID : ElemID := ⟨"salto", "nested", "type", []⟩

def nestedFields : List (String × FieldDef) :=
  [("field1", ⟨strTypeRef, [("_default", .str "field1")]⟩),
   ("field2", ⟨strTypeRef, []⟩),
   ("base", ⟨baseTypeRef, []⟩)]

def nestedT : InstTypeRef := ⟨nestedID, nestedFields⟩

def insID : ElemID := ⟨"salto", "nested", "instance", ["ins"]⟩

def ins1 : Element :=
  .instanceElement insID nestedT
    [("field1", .str "ins1"), ("field2", .str "ins1")] [("anno", .num 1)]

def ins2 : Element :=
  .instanceElement insID nestedT
    [("base", .map [("field1", .str "ins2"), ("field2", .str "ins2")])] [("anno2", .num 1)]

def shouldUseFieldDef : Element :=
  .instanceElement insID nestedT [("field2", .str "ins1")] []

def shouldUseTypeDef : Element :=
  .instanceElement insID nestedT [("field1", .str "ins1")] []

def conflictingAnnos : Element :=
  .instanceElement insID nestedT
    [("base", .map [("field1", .str "ins2"), ("field2", .str "ins2")])] [("anno", .num 1)]

def recID : ElemID := ⟨"salto", "recursive", "type", []⟩

def recT : InstTypeRef := ⟨recID, [("field", ⟨⟨recID, []⟩, []⟩)]⟩

def recInsID : ElemID := ⟨"salto", "recursive", "instance", ["ins"]⟩

def recursiveInstance : Element := .instanceElement recInsID recT [] []

def varID1 : ElemID := ⟨"var", "varName", "var", []⟩

def varID2 : ElemID := ⟨"var", "varName2", "var", []⟩

end MergerFixtures

open MergerFixtures in
theorem modelTest_mergeInstances :
    (mergeElements [ins1, ins2]).errors = []
    ∧ (mergeElements [ins1, ins2]).merged
      = [.instanceElement insID nestedT
          [("base", .map [("field1", .str "ins2"), ("field2", .str "ins2")]),
           ("field1", .str "ins1"), ("field2", .str "ins1")]
          [("anno", .num 1), ("anno2", .num 1)]] := by
  decide

open MergerFixtures in
theorem modelTest_fieldDefaults :
    (mergeElements [shouldUseFieldDef, ins2]).errors = []
    ∧ ((mergeElements [shouldUseFieldDef, ins2]).merged.map (fun e =>
        match e with
        | .instanceElement _ _ v _ => lookupVal "field1" v
        | _ => none))
      = [some (.str "field1")] := by
  decide

open MergerFixtures in
theorem modelTest_typeDefaults :
    (mergeElements [shouldUseTypeDef, ins2]).errors = []
    ∧ ((mergeElements [shouldUseTypeDef, ins2]).merged.map (fun e =>
        match e with
        | .instanceElement _ _ v _ => lookupVal "field2" v
        | _ => none))
      = [some (.str "type")] := by
  decide

open MergerFixtures in
theorem modelTest_objectDefaults :
    (mergeElements [ins1]).errors = []
    ∧ ((mergeElements [ins1]).merged.map (fun e =>
        match e with
        | .instanceElement _ _ v _ => lookupVal "base" v
        | _ => none))
      = [some (.map [("field1", .str "base1"), ("field2", .str "base2")])] := by
  decide

open MergerFixtures in
theorem modelTest_recursiveType :
    (mergeElements [recursiveInstance]).errors = []
    ∧ (mergeElements [recursiveInstance]).merged.length = 1 := by
  decide

open MergerFixtures in
theorem modelTest_duplicateValueKey :
    ((mergeElements [ins1, shouldUseFieldDef]).errors.map (·.kind))
      = [.duplicateInstanceKey] := by
  decide

open MergerFixtures in
theorem modelTest_duplicateAnnoValue :
    ((mergeElements [ins1, conflictingAnnos]).errors.map (·.kind)) = [.duplicateAnno] := by
  decide

open MergerFixtures in
theorem modelTest_duplicatePrimitives :
    ((mergeElements [strTypeElem, duplicateTypeElem]).errors.map (·.kind))
      = [.multiplePrimitiveTypesUnsupported] := by
  decide

open MergerFixtures in
theorem modelTest_duplicateVariables :
    ((mergeElements [.var varID1 (.num 5), .var varID1 (.num 5)]).errors.map (·.kind))
      = [.duplicateVariableName] := by
  decide

open MergerFixtures in
theorem modelTest_distinctVariables :
    (mergeElements [.var varID1 (.num 5), .var varID2 (.num 8)]).errors = []
    ∧ (mergeElements [.var varID1 (.num 5), .var varID2 (.num 8)]).merged
      = [.var varID1 (.num 5), .var varID2 (.num 8)]
    ∧ varID1.getFullName = "var.varName"
    ∧ varID2.getFullName = "var.varName2" := by
  decide

open MergerFixtures in
theorem modelTest_instancesAndTypes :
    (mergeElements [baseObj, unrelatedObj, update1, update2, updateAnno, updateAnnoValues,
      .instanceElement ⟨"salto", "base", "instance", ["inst"]⟩
        ⟨baseID, [("field1", ⟨strRef, [("label", .str "base")]⟩),
                  ("field2", ⟨strRef, [("label", .str "base")]⟩)]⟩ [] [],
      .instanceElement ⟨"salto", "unrelated", "instance", ["inst2"]⟩
        ⟨unrelatedID, [("field1", ⟨strRef, [("label", .str "base")]⟩)]⟩ [] []]).errors = []
    ∧ (mergeElements [baseObj, unrelatedObj, update1, update2, updateAnno, updateAnnoValues,
      .instanceElement ⟨"salto", "base", "instance", ["inst"]⟩
        ⟨baseID, [("field1", ⟨strRef, [("label", .str "base")]⟩),
                  ("field2", ⟨strRef, [("label", .str "base")]⟩)]⟩ [] [],
      .instanceElement ⟨"salto", "unrelated", "instance", ["inst2"]⟩
        ⟨unrelatedID, [("field1", ⟨strRef, [("label", .str "base")]⟩)]⟩ [] []]).merged.length
      = 4 := by
  decide

/-! ### Order-independence machinery

The spec requires (I1) that the merge result not depend on the order of the
input.  The lemmas below establish the properties of the canonical key order
and permutation congruences for the merge helpers. -/

theorem lexLt_asymm {α : Type} (lt : α → α → Bool)
    (h1 : ∀ a b, lt a b = true → lt b a = false) :
    ∀ x y, lexLt lt x y = true → lexLt lt y x = false
  | [], [], _ => rfl
  | [], _ :: _, _ => rfl
  | _ :: _, [], h => by simp [lexLt] at h
  | a :: as, b :: bs, h => by
    simp only [lexLt] at h ⊢
    by_cases hab : lt a b = true
    · simp [hab, h1 a b hab]
    · by_cases hba : lt b a = true
      · simp [hab, hba] at h
      · simp only [if_neg hab, if_neg hba] at h ⊢
        exact lexLt_asymm lt h1 as bs h

theorem lexLt_eq_of_both_false {α : Type} (lt : α → α → Bool)
    (h2 : ∀ a b, lt a b = false → lt b a = false → a = b) :
    ∀ x y, lexLt lt x y = false → lexLt lt y x = false → x = y
  | [], [], _, _ => rfl
  | [], _ :: _, h, _ => by simp [lexLt] at h
  | _ :: _, [], _, h => by simp [lexLt] at h
  | a :: as, b :: bs, h, h' => by
    simp only [lexLt] at h h'
    by_cases hab : lt a b = true
    · simp [hab] at h
    · by_cases hba : lt b a = true
      · simp [hba] at h'
      · simp only [if_neg hab, if_neg hba] at h h'
        have := h2 a b (by simpa using hab) (by simpa using hba)
        rw [this, lexLt_eq_of_both_false lt h2 as bs h h']

theorem lexLt_trans {α : Type} (lt : α → α → Bool)
    (h2 : ∀ a b, lt a b = false → lt b a = false → a = b)
    (h3 : ∀ a b c, lt a b = true → lt b c = true → lt a c = true) :
    ∀ x y z, lexLt lt x y = true → lexLt lt y z = true → lexLt lt x z = true
  | [], [], _, h, h' => by simp [lexLt] at h
  | [], _ :: _, [], _, h' => by simp [lexLt] at h'
  | [], _ :: _, _ :: _, _, _ => rfl
  | _ :: _, [], _, h, _ => by simp [lexLt] at h
  | _ :: _, _ :: _, [], _, h' => by simp [lexLt] at h'
  | a :: as, b :: bs, c :: cs, h, h' => by
    simp only [lexLt] at h h' ⊢
    by_cases hab : lt a b = true
    · by_cases hbc : lt b c = true
      · simp [h3 a b c hab hbc]
      · by_cases hcb : lt c b = true
        · simp [hab, hbc, hcb] at h'
        · have hbceq : b = c := h2 b c (by simpa using hbc) (by simpa using hcb)
          subst hbceq
          simp [hab]
    · by_cases hba : lt b a = true
      · simp [hab, hba] at h
      · have habeq : a = b := h2 a b (by simpa using hab) (by simpa using hba)
        subst habeq
        rw [if_neg hab, if_neg hba] at h
        by_cases hbc : lt a c = true
        · simp [hbc]
        · by_cases hcb : lt c a = true
          · rw [if_neg hbc, if_pos hcb] at h'
            exact absurd h' (by simp)
          · rw [if_neg hbc, if_neg hcb] at h' ⊢
            exact lexLt_trans lt h2 h3 as bs cs h h'

theorem charLtB_asymm (a b : Char) (h : charLtB a b = true) : charLtB b a = false := by
  simp only [charLtB, decide_eq_true_eq] at h
  simp only [charLtB, decide_eq_false_iff_not]
  omega

theorem charLtB_eq (a b : Char) (h : charLtB a b = false) (h' : charLtB b a = false) :
    a = b := by
  simp only [charLtB, decide_eq_false_iff_not] at h h'
  have : a.toNat = b.toNat := by omega
  exact Char.ext (UInt32.ext this)

theorem charLtB_trans (a b c : Char) (h : charLtB a b = true) (h' : charLtB b c = true) :
    charLtB a c = true := by
  simp only [charLtB, decide_eq_true_eq] at h h' ⊢
  omega

theorem strLtB_asymm (a b : String) (h : strLtB a b = true) : strLtB b a = false :=
  lexLt_asymm charLtB charLtB_asymm a.data b.data h

theorem strLtB_eq (a b : String) (h : strLtB a b = false) (h' : strLtB b a = false) :
    a = b :=
  String.ext (lexLt_eq_of_both_false charLtB charLtB_eq a.data b.data h h')

theorem strLtB_trans (a b c : String) (h : strLtB a b = true) (h' : strLtB b c = true) :
    strLtB a c = true :=
  lexLt_trans charLtB charLtB_eq charLtB_trans a.data b.data c.data h h'

theorem strListLtB_asymm (a b : List String) (h : strListLtB a b = true) :
    strListLtB b a = false :=
  lexLt_asymm strLtB strLtB_asymm a b h

theorem strListLtB_eq (a b : List String) (h : strListLtB a b = false)
    (h' : strListLtB b a = false) : a = b :=
  lexLt_eq_of_both_false strLtB strLtB_eq a b h h'

theorem strListLtB_trans (a b c : List String) (h : strListLtB a b = true)
    (h' : strListLtB b c = true) : strListLtB a c = true :=
  lexLt_trans strLtB strLtB_eq strLtB_trans a b c h h'

instance : IsTotal String strLe :=
  ⟨fun a b => by
    unfold strLe
    by_cases h : strLtB b a = true
    · exact Or.inr (strLtB_asymm b a h)
    · exact Or.inl (by simpa using h)⟩

instance : IsTrans String strLe :=
  ⟨fun a b c hab hbc => by
    unfold strLe at hab hbc ⊢
    by_cases hca : strLtB c a = true
    · by_cases hbc' : strLtB b c = true
      · have := strLtB_trans b c a hbc' hca
        rw [this] at hab
        exact absurd hab (by simp)
      · have : b = c := strLtB_eq b c (by simpa using hbc') hbc
        subst this
        rw [hca] at hab
        exact absurd hab (by simp)
    · simpa using hca⟩

instance : IsAntisymm String strLe :=
  ⟨fun a b hab hba => strLtB_eq a b hba hab⟩

theorem flatten_inj {a b : ElemID} (h : a.flatten = b.flatten) : a = b := by
  cases a
  cases b
  simp only [ElemID.flatten, List.cons_inj_right, List.cons.injEq] at h
  simp_all [ElemID.mk.injEq]

instance : IsTotal ElemID idLe :=
  ⟨fun a b => by
    unfold idLe
    by_cases h : strListLtB b.flatten a.flatten = true
    · exact Or.inr (strListLtB_asymm _ _ h)
    · exact Or.inl (by simpa using h)⟩

instance : IsTrans ElemID idLe :=
  ⟨fun a b c hab hbc => by
    unfold idLe at hab hbc ⊢
    by_cases hca : strListLtB c.flatten a.flatten = true
    · by_cases hbc' : strListLtB b.flatten c.flatten = true
      · have := strListLtB_trans _ _ _ hbc' hca
        rw [this] at hab
        exact absurd hab (by simp)
      · have : b.flatten = c.flatten := strListLtB_eq _ _ (by simpa using hbc') hbc
        rw [flatten_inj this] at hab
        rw [hca] at hab
        exact absurd hab (by simp)
    · simpa using hca⟩

instance : IsAntisymm ElemID idLe :=
  ⟨fun _ _ hab hba => flatten_inj (strListLtB_eq _ _ hba hab)⟩

/-- Sorting the deduplicated keys is a function of the multiset of keys. -/
theorem sortedDedupStr_perm {l₁ l₂ : List String} (h : l₁.Perm l₂) :
    sortedDedupStr l₁ = sortedDedupStr l₂ := by
  refine List.eq_of_perm_of_sorted (r := strLe) ?_ ?_ ?_
  · exact ((List.perm_insertionSort _ _).trans h.dedup).trans
      (List.perm_insertionSort _ _).symm
  · exact List.sorted_insertionSort _ _
  · exact List.sorted_insertionSort _ _

theorem sortedDedupIds_perm {l₁ l₂ : List ElemID} (h : l₁.Perm l₂) :
    sortedDedupIds l₁ = sortedDedupIds l₂ := by
  refine List.eq_of_perm_of_sorted (r := idLe) ?_ ?_ ?_
  · exact ((List.perm_insertionSort _ _).trans h.dedup).trans
      (List.perm_insertionSort _ _).symm
  · exact List.sorted_insertionSort _ _
  · exact List.sorted_insertionSort _ _

theorem sortedDedupIds_nodup (l : List ElemID) : (sortedDedupIds l).Nodup :=
  (List.perm_insertionSort idLe l.dedup).symm.nodup (List.nodup_dedup l)

theorem perm_flatMap {α β : Type} (f : α → List β) {l₁ l₂ : List α} (h : l₁.Perm l₂) :
    (l₁.flatMap f).Perm (l₂.flatMap f) := by
  rw [List.flatMap_def, List.flatMap_def]
  exact (h.map f).flatten

theorem perm_isEmpty_eq {α : Type} {l₁ l₂ : List α} (h : l₁.Perm l₂) :
    l₁.isEmpty = l₂.isEmpty := by
  have := h.length_eq
  cases l₁ <;> cases l₂ <;> simp_all

theorem perm_all_eq {α : Type} (p : α → Bool) {l₁ l₂ : List α} (h : l₁.Perm l₂) :
    l₁.all p = l₂.all p := by
  by_cases ha : l₁.all p = true
  · rw [ha]
    symm
    rw [List.all_eq_true] at ha ⊢
    exact fun x hx => ha x (h.mem_iff.mpr hx)
  · have hb : ¬ l₂.all p = true := by
      rw [List.all_eq_true] at ha ⊢
      exact fun hall => ha (fun x hx => hall x (h.mem_iff.mp hx))
    rw [Bool.not_eq_true] at ha hb
    rw [ha, hb]

theorem foldr_congr_fun {α β : Type} {f g : α → β → β} {init : β}
    (hfg : ∀ a b, f a b = g a b) : ∀ l : List α, l.foldr f init = l.foldr g init
  | [] => rfl
  | a :: l => by rw [List.foldr_cons, List.foldr_cons, foldr_congr_fun hfg l, hfg]

theorem filterMap_congr_fun {α β : Type} {f g : α → Option β}
    (hfg : ∀ a, f a = g a) : ∀ l : List α, l.filterMap f = l.filterMap g
  | [] => rfl
  | a :: l => by
    rw [List.filterMap_cons, List.filterMap_cons, hfg, filterMap_congr_fun hfg l]

/-- The fuel of the n-way value merge is a function of the entry multiset. -/
theorem entriesFuel_perm {e₁ e₂ : List (String × Value)} (h : e₁.Perm e₂) :
    entriesFuel e₁ = entriesFuel e₂ := by
  unfold entriesFuel
  rw [(h.map (fun e => Value.vsize e.2)).sum_eq]

/-- The n-way value merge is a function of the entry multiset. -/
theorem nMergeValues_perm (kind : MergeErrorKind) :
    ∀ (fuel : Nat) (parent : ElemID) {e₁ e₂ : List (String × Value)}, e₁.Perm e₂ →
      nMergeValues kind fuel parent e₁ = nMergeValues kind fuel parent e₂
  | 0, _, _, _, _ => rfl
  | fuel + 1, parent, e₁, e₂, h => by
    simp only [nMergeValues]
    rw [show sortedDedupStr (e₂.map (·.1)) = sortedDedupStr (e₁.map (·.1)) from
      sortedDedupStr_perm ((h.map _).symm)]
    refine foldr_congr_fun (fun key acc => ?_) _
    have hvs : ((e₁.filter (fun e => e.1 == key)).map (·.2)).Perm
        ((e₂.filter (fun e => e.1 == key)).map (·.2)) := (h.filter _).map _
    revert hvs
    generalize (e₁.filter (fun e => e.1 == key)).map (·.2) = vs₁
    generalize (e₂.filter (fun e => e.1 == key)).map (·.2) = vs₂
    intro hvs
    match vs₁, vs₂ with
    | [], vs₂ =>
      rw [hvs.symm.eq_nil]
    | [v], vs₂ =>
      rw [← List.singleton_perm.mp hvs]
    | v₁ :: v₂ :: t₁, [] =>
      exact absurd hvs.length_eq (by simp)
    | v₁ :: v₂ :: t₁, [w] =>
      exact absurd hvs.length_eq (by simp)
    | v₁ :: v₂ :: t₁, w₁ :: w₂ :: t₂ =>
      show (if (v₁ :: v₂ :: t₁).all Value.isMap then _ else _)
        = (if (w₁ :: w₂ :: t₂).all Value.isMap then _ else _)
      rw [perm_all_eq Value.isMap hvs]
      by_cases hall : (w₁ :: w₂ :: t₂).all Value.isMap = true
      · rw [if_pos hall, if_pos hall]
        have hinner : (((v₁ :: v₂ :: t₁).map Value.entriesOf).flatten).Perm
            (((w₁ :: w₂ :: t₂).map Value.entriesOf).flatten) := (hvs.map _).flatten
        rw [nMergeValues_perm kind fuel (valueChildID parent key) hinner]
      · rw [if_neg hall, if_neg hall]

/-- The union-or-error combinator is a function of the contribution multiset. -/
theorem combineAnnos_perm {α : Type} (baseA : List (String × α))
    (mkErr : String → MergeError) {u₁ u₂ : List (String × α)} (h : u₁.Perm u₂) :
    combineAnnos baseA u₁ mkErr = combineAnnos baseA u₂ mkErr := by
  simp only [combineAnnos]
  rw [show sortedDedupStr (u₂.map (·.1)) = sortedDedupStr (u₁.map (·.1)) from
    sortedDedupStr_perm ((h.map _).symm)]
  have hfilter :
      (sortedDedupStr (u₁.map (·.1))).filter
          (fun key => decide (2 ≤ (u₂.map (·.1)).count key))
        = (sortedDedupStr (u₁.map (·.1))).filter
          (fun key => decide (2 ≤ (u₁.map (·.1)).count key)) :=
    List.filter_congr (fun key _ => by rw [(h.map (·.1)).count_eq key])
  rw [hfilter]
  have hsel : ∀ key : String,
      (match (u₂.filter (fun kv => kv.1 == key)).map (·.2) with
        | [v] => some (key, v)
        | _ => none)
      = (match (u₁.filter (fun kv => kv.1 == key)).map (·.2) with
        | [v] => some (key, v)
        | _ => none) := by
    intro key
    have hp : ((u₂.filter (fun kv => kv.1 == key)).map (·.2)).Perm
        ((u₁.filter (fun kv => kv.1 == key)).map (·.2)) := (h.symm.filter _).map _
    revert hp
    generalize (u₂.filter (fun kv => kv.1 == key)).map (·.2) = vs₁
    generalize (u₁.filter (fun kv => kv.1 == key)).map (·.2) = vs₂
    intro hp
    match vs₁, vs₂ with
    | [], vs₂ => rw [hp.symm.eq_nil]
    | [v], vs₂ => rw [← List.singleton_perm.mp hp]
    | v₁ :: v₂ :: t₁, [] => exact absurd hp.length_eq (by simp)
    | v₁ :: v₂ :: t₁, [w] => exact absurd hp.length_eq (by simp)
    | v₁ :: v₂ :: t₁, w₁ :: w₂ :: t₂ => rfl
  rw [filterMap_congr_fun hsel]

/-- The per-field merge is a function of the update-field multiset. -/
theorem mergeFieldDef_perm (k : ElemID) {e₁ e₂ : List (String × FieldDef)}
    (h : e₁.Perm e₂) (nf : String × FieldDef) :
    mergeFieldDef k e₁ nf = mergeFieldDef k e₂ nf := by
  simp only [mergeFieldDef]
  rw [combineAnnos_perm _ _ (perm_flatMap _ ((h.filter _).map _))]

/-- The base-plus-updates object merge is a function of the update multiset. -/
theorem mergeWithUpdates_perm (k : ElemID) (b : ObjData) {u₁ u₂ : List ObjData}
    (h : u₁.Perm u₂) : mergeWithUpdates k b u₁ = mergeWithUpdates k b u₂ := by
  simp only [mergeWithUpdates]
  have hfe : (u₁.flatMap (·.fields)).Perm (u₂.flatMap (·.fields)) := perm_flatMap _ h
  rw [show sortedDedupStr ((u₂.flatMap (·.fields)).map (·.1))
      = sortedDedupStr ((u₁.flatMap (·.fields)).map (·.1)) from
    sortedDedupStr_perm ((hfe.map _).symm)]
  rw [List.map_congr_left (fun nf _ => mergeFieldDef_perm k hfe.symm nf),
    combineAnnos_perm b.annotations _ (perm_flatMap (fun o => o.annotations) h),
    combineAnnos_perm b.annotationTypes _ (perm_flatMap (fun o => o.annotationTypes) h)]

/-- The object-group merge is a function of the declaration multiset. -/
theorem mergeObjectGroup_perm (k : ElemID) {o₁ o₂ : List ObjData} (h : o₁.Perm o₂) :
    mergeObjectGroup k o₁ = mergeObjectGroup k o₂ := by
  simp only [mergeObjectGroup]
  have hu : (o₁.filter (fun o => !o.isBase)).Perm (o₂.filter (fun o => !o.isBase)) :=
    h.filter _
  have hb : (o₁.filter ObjData.isBase).Perm (o₂.filter ObjData.isBase) := h.filter _
  revert hb
  generalize o₁.filter ObjData.isBase = b₁
  generalize o₂.filter ObjData.isBase = b₂
  intro hb
  match b₁, b₂ with
  | [], b₂ => rw [hb.symm.eq_nil]
  | [b], b₂ =>
    rw [← List.singleton_perm.mp hb]
    dsimp only
    rw [perm_isEmpty_eq hu]
    by_cases hemp : (o₂.filter (fun o => !o.isBase)).isEmpty = true
    · rw [if_pos hemp, if_pos hemp]
    · rw [if_neg hemp, if_neg hemp, mergeWithUpdates_perm k b hu]
  | x₁ :: x₂ :: t₁, [] => exact absurd hb.length_eq (by simp)
  | x₁ :: x₂ :: t₁, [w] => exact absurd hb.length_eq (by simp)
  | x₁ :: x₂ :: t₁, y₁ :: y₂ :: t₂ =>
    have hn : ((x₁ :: x₂ :: t₁).flatMap (fun o => o.fields.map (·.1))).Perm
        ((y₁ :: y₂ :: t₂).flatMap (fun o => o.fields.map (·.1))) := perm_flatMap _ hb
    rw [show sortedDedupStr ((y₁ :: y₂ :: t₂).flatMap (fun o => o.fields.map (·.1)))
        = sortedDedupStr ((x₁ :: x₂ :: t₁).flatMap (fun o => o.fields.map (·.1))) from
      sortedDedupStr_perm hn.symm]
    have hfilter :
        (sortedDedupStr ((x₁ :: x₂ :: t₁).flatMap (fun o => o.fields.map (·.1)))).filter
            (fun n => decide
              (2 ≤ ((y₁ :: y₂ :: t₂).flatMap (fun o => o.fields.map (·.1))).count n))
          = (sortedDedupStr ((x₁ :: x₂ :: t₁).flatMap (fun o => o.fields.map (·.1)))).filter
            (fun n => decide
              (2 ≤ ((x₁ :: x₂ :: t₁).flatMap (fun o => o.fields.map (·.1))).count n)) :=
      List.filter_congr (fun key _ => by rw [hn.count_eq key])
    rw [hfilter]

/-- The instance-group merge is a function of the instance multiset. -/
theorem mergeInstGroup_perm (k : ElemID) {i₁ i₂ : List InstData} (h : i₁.Perm i₂) :
    mergeInstGroup k i₁ = mergeInstGroup k i₂ := by
  simp only [mergeInstGroup, nMergeTop]
  have hv : (i₁.flatMap (·.value)).Perm (i₂.flatMap (·.value)) := perm_flatMap _ h
  have ha : (i₁.flatMap (·.annotations)).Perm (i₂.flatMap (·.annotations)) :=
    perm_flatMap _ h
  rw [entriesFuel_perm hv, entriesFuel_perm ha, nMergeValues_perm _ _ _ hv,
    nMergeValues_perm _ _ _ ha]
  have ht : ((i₁.map (·.itype)).dedup).Perm ((i₂.map (·.itype)).dedup) := (h.map _).dedup
  revert ht
  generalize (i₁.map (·.itype)).dedup = t₁
  generalize (i₂.map (·.itype)).dedup = t₂
  intro ht
  match t₁, t₂ with
  | [], t₂ => rw [ht.symm.eq_nil]
  | [t], t₂ => rw [← List.singleton_perm.mp ht]
  | a :: c :: t, [] => exact absurd ht.length_eq (by simp)
  | a :: c :: t, [w] => exact absurd ht.length_eq (by simp)
  | a :: c :: t, w₁ :: w₂ :: t₂ => rfl

/-- The type-side group merge is a function of the declaration multisets. -/
theorem mergeTypePart_perm (k : ElemID) {o₁ o₂ : List ObjData} {p₁ p₂ : List PrimData}
    {v₁ v₂ : List Value} (ho : o₁.Perm o₂) (hp : p₁.Perm p₂) (hv : v₁.Perm v₂) :
    mergeTypePart k o₁ p₁ v₁ = mergeTypePart k o₂ p₂ v₂ := by
  simp only [mergeTypePart]
  rw [perm_isEmpty_eq ho, perm_isEmpty_eq hp]
  by_cases hoe : o₂.isEmpty = true
  · rw [if_pos hoe, if_pos hoe]
    by_cases hpe : p₂.isEmpty = true
    · rw [if_pos hpe, if_pos hpe]
      match v₁, v₂ with
      | [], v₂ => rw [hv.symm.eq_nil]
      | [v], v₂ => rw [← List.singleton_perm.mp hv]
      | a :: c :: t, [] => exact absurd hv.length_eq (by simp)
      | a :: c :: t, [w] => exact absurd hv.length_eq (by simp)
      | a :: c :: t, w₁ :: w₂ :: t₂ => rfl
    · rw [if_neg hpe, if_neg hpe]
      match p₁, p₂ with
      | [], p₂ => rw [hp.symm.eq_nil]
      | [p], p₂ => rw [← List.singleton_perm.mp hp]
      | a :: c :: t, [] => exact absurd hp.length_eq (by simp)
      | a :: c :: t, [w] => exact absurd hp.length_eq (by simp)
      | a :: c :: t, w₁ :: w₂ :: t₂ => rfl
  · rw [if_neg hoe, if_neg hoe]
    have hoo : o₁.Perm o₂ := ho
    exact mergeObjectGroup_perm k hoo

/-- The per-ElemID group merge is a function of the group multiset. -/
theorem mergeGroup_perm (k : ElemID) {g₁ g₂ : List Element} (h : g₁.Perm g₂) :
    mergeGroup k g₁ = mergeGroup k g₂ := by
  simp only [mergeGroup]
  rw [mergeTypePart_perm k (h.filterMap Element.asObject) (h.filterMap Element.asPrimitive)
    (h.filterMap Element.asVariable)]
  rw [perm_isEmpty_eq (h.filterMap Element.asInstance)]
  by_cases hi : (g₂.filterMap Element.asInstance).isEmpty = true
  · rw [if_pos hi, if_pos hi]
  · rw [if_neg hi, if_neg hi, mergeInstGroup_perm k (h.filterMap Element.asInstance)]

/-- `mergeElements` is a function of the input multiset: the whole result is
equal under any permutation of the input. -/
theorem mergeElements_perm_eq {xs ys : List Element} (h : xs.Perm ys) :
    mergeElements xs = mergeElements ys := by
  simp only [mergeElements]
  rw [show sortedDedupIds (ys.map Element.elemID) = sortedDedupIds (xs.map Element.elemID)
    from sortedDedupIds_perm ((h.map _).symm)]
  rw [List.map_congr_left (fun k _ => mergeGroup_perm k (h.filter (fun e => e.elemID == k)))]

/-! ### Uniqueness of merged ElemIDs -/

theorem mergeWithUpdates_elemID (k : ElemID) (b : ObjData) (updates : List ObjData)
    {e : Element} (he : (mergeWithUpdates k b updates).1 = some e) : e.elemID = k := by
  simp only [mergeWithUpdates] at he
  split at he
  · injection he with he'
    rw [← he']
    rfl
  · exact absurd he (by simp)

theorem mergeObjectGroup_elemID (k : ElemID) (objs : List ObjData)
    {e : Element} (he : (mergeObjectGroup k objs).1 = some e) : e.elemID = k := by
  simp only [mergeObjectGroup] at he
  split at he
  · exact absurd he (by simp)
  · split at he
    · injection he with he'
      rw [← he']
      rfl
    · exact mergeWithUpdates_elemID k _ _ he
  · exact absurd he (by simp)

theorem mergeTypePart_elemID (k : ElemID) (objs : List ObjData) (prims : List PrimData)
    (vars : List Value) {e : Element}
    (he : (mergeTypePart k objs prims vars).1 = some e) : e.elemID = k := by
  simp only [mergeTypePart] at he
  split at he
  · split at he
    · split at he
      · exact absurd he (by simp)
      · injection he with he'
        rw [← he']
        rfl
      · exact absurd he (by simp)
    · split at he
      · injection he with he'
        rw [← he']
        rfl
      · exact absurd he (by simp)
  · exact mergeObjectGroup_elemID k _ he

theorem mergeInstGroup_elemID (k : ElemID) (insts : List InstData)
    {e : Element} (he : (mergeInstGroup k insts).1 = some e) : e.elemID = k := by
  simp only [mergeInstGroup] at he
  injection he with he'
  rw [← he']
  rfl

/-- Any element produced for an ElemID group carries that ElemID. -/
theorem mergeGroup_elemID (k : ElemID) (g : List Element) {e : Element}
    (he : (mergeGroup k g).1 = some e) : e.elemID = k := by
  simp only [mergeGroup] at he
  rcases ho : (mergeTypePart k (g.filterMap Element.asObject)
      (g.filterMap Element.asPrimitive) (g.filterMap Element.asVariable)).1 with _ | e'
  · rw [ho, Option.none_orElse] at he
    split at he
    · exact absurd he (by simp)
    · exact mergeInstGroup_elemID k _ he
  · rw [ho, Option.some_orElse] at he
    injection he with he'
    rw [← he']
    exact mergeTypePart_elemID k _ _ _ ho

theorem filterMap_pairwise_ne {keys : List ElemID}
    (f : ElemID → Option Element) (hf : ∀ k e, f k = some e → e.elemID = k) :
    keys.Nodup → (keys.filterMap f).Pairwise (fun a b => a.elemID ≠ b.elemID) := by
  induction keys with
  | nil => intro _; simp
  | cons k ks ih =>
    intro hnd
    rw [List.nodup_cons] at hnd
    rw [List.filterMap_cons]
    rcases hk : f k with _ | e
    · exact ih hnd.2
    · refine List.Pairwise.cons ?_ (ih hnd.2)
      intro b hb
      rcases List.mem_filterMap.mp hb with ⟨k', hk', hfk'⟩
      rw [hf k e hk, hf k' b hfk']
      intro hkk
      exact hnd.1 (hkk ▸ hk')

/-! ### Default injection lemmas -/

theorem lookupVal_eq_none_of_not_hasKey {α : Type} {key : String} {m : List (String × α)}
    (h : hasKey key m = false) : lookupVal key m = none := by
  unfold lookupVal
  rw [List.find?_eq_none.mpr ?_]
  · rfl
  · intro x hx hbeq
    have : m.any (fun kv => kv.1 == key) = true := List.any_eq_true.mpr ⟨x, hx, hbeq⟩
    rw [hasKey] at h
    rw [h] at this
    cases this

theorem lookupVal_isSome_of_hasKey {α : Type} {key : String} {m : List (String × α)}
    (h : hasKey key m = true) : (lookupVal key m).isSome = true := by
  obtain ⟨x, hx, hbeq⟩ := List.any_eq_true.mp h
  have hfind : (List.find? (fun kv => kv.1 == key) m).isSome = true :=
    List.find?_isSome.mpr ⟨x, hx, hbeq⟩
  unfold lookupVal
  rcases hf : List.find? (fun kv => kv.1 == key) m with _ | kv
  · rw [hf] at hfind
    cases hfind
  · rw [hf]
    rfl

theorem lookupVal_append_of_none {α : Type} {key : String} {l₁ l₂ : List (String × α)}
    (h : lookupVal key l₁ = none) : lookupVal key (l₁ ++ l₂) = lookupVal key l₂ := by
  unfold lookupVal at *
  rw [List.find?_append]
  rcases hf : List.find? (fun kv => kv.1 == key) l₁ with _ | kv
  · rw [hf]
    rfl
  · rw [hf] at h
    exact absurd h (by simp)

theorem lookupVal_append_of_some {α : Type} {key : String} {l₁ l₂ : List (String × α)}
    {v : α} (h : lookupVal key l₁ = some v) : lookupVal key (l₁ ++ l₂) = some v := by
  unfold lookupVal at *
  rw [List.find?_append]
  rcases hf : List.find? (fun kv => kv.1 == key) l₁ with _ | kv
  · rw [hf] at h
    exact absurd h (by simp)
  · rw [hf] at h
    rw [hf]
    exact h

theorem lookup_defaults_not_mem (value : List (String × Value)) (n : String) :
    ∀ tf : List (String × FieldDef), n ∉ tf.map Prod.fst →
    lookupVal n (tf.filterMap (fun nf => if hasKey nf.1 value then none
      else (fieldDefault nf.2).map (fun d => (nf.1, d)))) = none
  | [], _ => rfl
  | (m, g) :: tf, hmem => by
    rw [List.map_cons] at hmem
    have hne : n ≠ m := fun hh => hmem (by simp [hh])
    have htail : n ∉ tf.map Prod.fst := fun hh => hmem (by simp [hh])
    rw [List.filterMap_cons]
    split
    · exact lookup_defaults_not_mem value n tf htail
    · next nf heq =>
      rcases hd : fieldDefault g with _ | d
      · split at heq
        · exact absurd heq (by simp)
        · rw [hd] at heq
          exact absurd heq.symm (by simp)
      · have : nf = (m, d) := by
          split at heq
          · exact absurd heq (by simp)
          · rw [hd] at heq
            injection heq with heq2
            exact heq2.symm
        rw [this]
        simp only [lookupVal, List.find?_cons]
        have hbeqf : ((m, d).1 == n) = false := by
          simp only [beq_eq_false_iff_ne, ne_eq]
          exact fun hh => hne hh.symm
        rw [hbeqf]
        exact lookup_defaults_not_mem value n tf htail

/-- Looking up a missing field after default injection yields the field's
default. -/
theorem applyDefaults_lookup_missing {tfields : List (String × FieldDef)}
    {value : List (String × Value)} {n : String} {f : FieldDef}
    (hnd : (tfields.map Prod.fst).Nodup) (hmem : (n, f) ∈ tfields)
    (hmiss : hasKey n value = false) :
    lookupVal n (applyDefaults tfields value) = fieldDefault f := by
  unfold applyDefaults
  rw [lookupVal_append_of_none (lookupVal_eq_none_of_not_hasKey hmiss)]
  induction tfields with
  | nil => exact absurd hmem (by simp)
  | cons headf tf ih =>
    rw [List.map_cons, List.nodup_cons] at hnd
    rw [List.filterMap_cons]
    by_cases hne : headf.1 = n
    · have hf : headf = (n, f) := by
        rcases List.mem_cons.mp hmem with hm | hm
        · exact hm.symm
        · exfalso
          apply hnd.1
          rw [hne]
          exact List.mem_map.mpr ⟨(n, f), hm, rfl⟩
      subst hf
      rw [if_neg (by rw [hmiss]; simp)]
      rcases hd : fieldDefault f with _ | d
      · dsimp only
        exact lookup_defaults_not_mem value n tf (by simpa using hnd.1)
      · dsimp only
        simp [lookupVal, List.find?_cons]
    · have hmem2 : (n, f) ∈ tf := by
        rcases List.mem_cons.mp hmem with hm | hm
        · exact absurd (congrArg Prod.fst hm.symm) hne
        · exact hm
      split
      · exact ih hnd.2 hmem2
      · next a heq =>
        have ha : a.1 = headf.1 := by
          split at heq
          · exact absurd heq (by simp)
          · rcases hd : fieldDefault headf.2 with _ | d
            · rw [hd] at heq
              exact absurd heq.symm (by simp)
            · rw [hd] at heq
              injection heq with heq2
              rw [← heq2]
        simp only [lookupVal, List.find?_cons]
        have hbeqf : (a.1 == n) = false := by
          simp only [beq_eq_false_iff_ne, ne_eq, ha]
          exact hne
        rw [hbeqf]
        exact ih hnd.2 hmem2

/-- Present keys are never overwritten by default injection. -/
theorem applyDefaults_lookup_present {tfields : List (String × FieldDef)}
    {value : List (String × Value)} {n : String}
    (hpres : hasKey n value = true) :
    lookupVal n (applyDefaults tfields value) = lookupVal n value := by
  unfold applyDefaults
  rcases hv : lookupVal n value with _ | v
  · have := lookupVal_isSome_of_hasKey hpres
    rw [hv] at this
    cases this
  · exact lookupVal_append_of_some hv

/-! ### Workspace coordinator, embedded from
`src/packages/salto/src/workspace/workspace.ts` -/

/-- From the parser interface (spec section 6.1): a position inside a file. -/
structure SourcePos where
  line : Nat
  col : Nat
  byte : Nat
deriving DecidableEq

/-- From the parser interface: a range inside a file.  The source's `end`
field is named `stop` here because `end` is reserved in Lean. -/
structure SourceRange where
  filename : String
  start : SourcePos
  stop : SourcePos
deriving DecidableEq

/-- From the parser interface: `ParseError = { subject, detail }`. -/
structure ParseError where
  subject : SourceRange
  detail : String
deriving DecidableEq

/-- The validation-error kinds of the core validator (spec section 4.3; the
validator implementation is outside the provided sources, but `workspace.ts`
distinguishes the `UnresolvedReferenceValidationError` subclass). -/
inductive ValidationErrorKind where
  | unresolvedReference
  | invalidValueType
  | circularReference
  | missingRequiredField
deriving DecidableEq

/-- A validation error: the kind stands for the TypeScript subclass, and
`error` / `message` are the payload strings `workspace.ts` reads. -/
structure ValidationError where
  kind : ValidationErrorKind
  elemID : ElemID
  error : String
  message : String
deriving DecidableEq

/-- From `workspace.ts` lines 135-151: the error triad. -/
structure Errors where
  parse : List ParseError
  merge : List MergeError
  validation : List ValidationError
deriving DecidableEq

/-- From `workspace.ts`: `[parse, merge, validation].some(e => e.length > 0)`. -/
def Errors.hasErrors (e : Errors) : Bool :=
  decide (0 < e.parse.length) || decide (0 < e.merge.length)
    || decide (0 < e.validation.length)

/-- From `workspace.ts` lines 144-150. -/
def Errors.strings (e : Errors) : List String :=
  e.parse.map (·.detail) ++ e.merge.map (·.error) ++ e.validation.map (·.error)

/-- From `workspace.ts`: `SourceFragment = { sourceRange, fragment }`. -/
structure SourceFragment where
  sourceRange : SourceRange
  fragment : String
deriving DecidableEq

/-- The cause union `ParseError | ValidationError | MergeError`. -/
inductive WorkspaceErrorCause where
  | parse (pe : ParseError)
  | merge (me : MergeError)
  | validation (ve : ValidationError)
deriving DecidableEq

/-- From `workspace.ts` lines 46-53; the severity strings are exactly
`"Error"` and `"Warning"`.  The `cause` is optional in the source type but is
always set by `getWorkspaceErrors`. -/
structure WorkspaceError where
  sourceFragments : List SourceFragment
  error : String
  severity : String
  cause : WorkspaceErrorCause
deriving DecidableEq

/-- From `workspace.ts` lines 55-59 and 158-163: the pieces of the workspace
state that `getWorkspaceErrors` and `flush` read. -/
structure ParsedBlueprint where
  filename : String
  buffer : String
  timestamp : Option Nat
  elements : List Element
  errors : List ParseError
  sourceMap : List (String × List SourceRange)
deriving DecidableEq

structure WorkspaceState where
  parsedBlueprints : List (String × ParsedBlueprint)
  sourceMap : List (String × List SourceRange)
  elements : List Element
  errors : Errors
deriving DecidableEq

/-- From `workspace.ts` line 32: the only severe validation-error class. -/
def severValidationErrorKinds : List ValidationErrorKind :=
  [.unresolvedReference]

/-- From `workspace.ts` lines 207-208:
`ve => (_.some(SeverValidationErrors, e => ve instanceof e) ? 'Error' : 'Warning')`. -/
def calculateValidationSeverity (ve : ValidationError) : String :=
  if severValidationErrorKinds.any (fun k => ve.kind == k) then "Error" else "Warning"

/-- JS `String.prototype.substring(start, end)` on the characters. -/
def substringModel (s : String) (a b : Nat) : String :=
  String.mk ((s.data.drop a).take (b - a))

/-- From `workspace.ts` lines 287-294 (`resolveSourceFragment`).  The source
indexes `parsedBlueprints[filename]` unconditionally; a missing file is
modelled as the empty buffer. -/
def resolveSourceFragment (st : WorkspaceState) (sr : SourceRange) : SourceFragment :=
  { sourceRange := sr
    fragment := substringModel
      (((lookupVal sr.filename st.parsedBlueprints).map (·.buffer)).getD "")
      sr.start.byte sr.stop.byte }

/-- From `workspace.ts` line 307: `this.sourceMap.get(name) || []`. -/
def sourceMapGet (sm : List (String × List SourceRange)) (key : String) : List SourceRange :=
  (lookupVal key sm).getD []

/-- From `workspace.ts` lines 296-327 (`getWorkspaceErrors`): project each
parse error, then each merge error, then each validation error. -/
def getWorkspaceErrors (st : WorkspaceState) : List WorkspaceError :=
  st.errors.parse.map (fun pe =>
    { sourceFragments := [resolveSourceFragment st pe.subject]
      error := pe.detail
      severity := "Error"
      cause := .parse pe })
  ++ st.errors.merge.map (fun me =>
    { sourceFragments := (sourceMapGet st.sourceMap me.elemID.getFullName).map
        (resolveSourceFragment st)
      error := me.message
      severity := "Error"
      cause := .merge me })
  ++ st.errors.validation.map (fun ve =>
    { sourceFragments := (sourceMapGet st.sourceMap ve.elemID.getFullName).map
        (resolveSourceFragment st)
      error := ve.message
      severity := calculateValidationSeverity ve
      cause := .validation ve })

/-- From `workspace.ts` line 24. -/
def credsDir : String := "credentials"

/-- The parts of the `Workspace` object that `flush` reads and writes. -/
structure WorkspaceFlushState where
  baseDir : String
  localStorage : String
  useCache : Bool
  parsedBlueprints : List (String × ParsedBlueprint)
  dirtyBlueprints : List String
deriving DecidableEq

/-- The file-system effects of `flush`, as data. -/
inductive FileOp where
  | rmFile (path : String)
  | mkdirpDir (path : String)
  | writeFile (path : String) (content : String)
  | cachePut (filename : String)
deriving DecidableEq

/-- POSIX `path.join` for the simple two-segment case used by `flush`. -/
def pathJoin (a b : String) : String :=
  a ++ "/" ++ b

/-- POSIX `path.dirname`. -/
def pathDirname (p : String) : String :=
  String.intercalate "/" ((p.splitOn "/").dropLast)

/-- From `workspace.ts` lines 403-408 (`isNewConfig`): the blueprint holds
exactly one element, that element is a config, and the blueprint file name is
`credentials/<adapter>.bp`. -/
def isNewConfig (bp : ParsedBlueprint) : Bool :=
  match bp.elements with
  | [e] => e.elemID.isConfig
      && (bp.filename == pathJoin credsDir (e.elemID.adapter ++ ".bp"))
  | _ => false

/-- From `workspace.ts` lines 410-429: for every dirty filename, delete the
file when the blueprint is gone from the map (the path falls back to `baseDir`
because `isNewConfig(undefined)` is falsy), otherwise make the parent
directory, write the buffer, and update the parse cache when caching is on. -/
def flushFileOps (ws : WorkspaceFlushState) : List FileOp :=
  ws.dirtyBlueprints.flatMap (fun filename =>
    match lookupVal filename ws.parsedBlueprints with
    | none => [.rmFile (pathJoin ws.baseDir filename)]
    | some bp =>
      let filePath := if isNewConfig bp then pathJoin ws.localStorage filename
        else pathJoin ws.baseDir filename
      [.mkdirpDir (pathDirname filePath), .writeFile filePath bp.buffer]
        ++ (if ws.useCache then [.cachePut filePath] else []))

/-- `flush()` performs the file operations and removes every processed
filename from the dirty set. -/
def flush (ws : WorkspaceFlushState) : WorkspaceFlushState × List FileOp :=
  ({ ws with dirtyBlueprints := [] }, flushFileOps ws)

/-! ### CLI formatter, embedded from `src/unnamed/part_001` -/

/-- From `getElapsedTime` (lines 159-161):
`Math.ceil((new Date().getTime() - start.getTime()) / 1000)`, on millisecond
timestamps. -/
def getElapsedTime (startMs nowMs : Nat) : Nat :=
  (nowMs - startMs + 999) / 1000

/-- From `createActionInProgressOutput` (lines 227-233).  `body` (chalk
styling) is the identity on the text; `planItemName` and the action prompt are
taken as arguments. -/
def createActionInProgressOutput (itemName actionText : String) (startMs nowMs : Nat) :
    String :=
  let elapsed := getElapsedTime startMs nowMs
  let elapsedRound := (elapsed - elapsed) % 5
  itemName ++ ": Still " ++ actionText ++ "... (" ++ toString elapsedRound ++ "s elapsed)"

/-- From `createItemDoneOutput` (lines 210-215), which does report the real
elapsed time. -/
def createItemDoneOutput (itemName endText : String) (startMs nowMs : Nat) : String :=
  itemName ++ ": " ++ endText ++ " completed after "
    ++ toString (getElapsedTime startMs nowMs) ++ "s"

/-! ### Change accessor, embedded from `src/unnamed/part_000` -/

/-- From `src/unnamed/part_000`: `Change<T>` is the union of `AdditionDiff`
(`action: 'add'`, `data: {after}`), `RemovalDiff` (`action: 'remove'`,
`data: {before}`) and `ModificationDiff` (`action: 'modify'`,
`data: {before, after}`). -/
inductive Change (T : Type) where
  | add (after : T)
  | remove (before : T)
  | modify (before after : T)

/-- The `action` discriminator of a change. -/
def Change.action {T : Type} : Change T → String
  | .add _ => "add"
  | .remove _ => "remove"
  | .modify _ _ => "modify"

/-- From `src/unnamed/part_000` lines 11-12:
`change.action === 'remove' ? change.data.before : change.data.after`. -/
def getChangeElement {T : Type} : Change T → T
  | .remove before => before
  | .add after => after
  | .modify _ after => after

/-! ### Claim theorems -/

theorem calculateValidationSeverity_eq (ve : ValidationError) :
    calculateValidationSeverity ve
      = if ve.kind = .unresolvedReference then "Error" else "Warning" := by
  cases hk : ve.kind <;>
    simp [calculateValidationSeverity, severValidationErrorKinds, hk]

/-- C1: for every input sequence of elements and every permutation of it,
`mergeElements` applied to the permutation returns a merged element list
structurally equal to `mergeElements` applied to the original, and an error
list with the same membership (the model even yields identical error lists). -/
theorem C1_mergeElements_order_independent (xs ys : List Element) (h : xs.Perm ys) :
    (mergeElements ys).merged = (mergeElements xs).merged
    ∧ ∀ e : MergeError, e ∈ (mergeElements ys).errors ↔ e ∈ (mergeElements xs).errors := by
  rw [mergeElements_perm_eq h]
  exact ⟨rfl, fun e => Iff.rfl⟩

open MergerFixtures in
theorem C1_witness :
    ([baseObj, update1] : List Element).Perm [update1, baseObj]
    ∧ ((mergeElements [update1, baseObj]).merged = (mergeElements [baseObj, update1]).merged
      ∧ ∀ e : MergeError, e ∈ (mergeElements [update1, baseObj]).errors
          ↔ e ∈ (mergeElements [baseObj, update1]).errors) :=
  ⟨List.Perm.swap update1 baseObj [],
   C1_mergeElements_order_independent [baseObj, update1] [update1, baseObj]
     (List.Perm.swap update1 baseObj [])⟩

/-- C2: the merged output of `mergeElements` contains at most one element per
ElemID: any two distinct positions of the merged list hold elements with
unequal ElemIDs. -/
theorem C2_merged_unique_elem_ids (xs : List Element) :
    (mergeElements xs).merged.Pairwise (fun a b => a.elemID ≠ b.elemID) := by
  show (((sortedDedupIds (xs.map Element.elemID)).map
      (fun k => mergeGroup k (xs.filter (fun e => e.elemID == k)))).filterMap
        (fun r => r.1)).Pairwise (fun a b => a.elemID ≠ b.elemID)
  rw [List.filterMap_map]
  exact filterMap_pairwise_ne _ (fun k e he => mergeGroup_elemID k _ he)
    (sortedDedupIds_nodup _)

/-- C3: for a field `f` of the instance type that is absent from the value,
default injection inserts `f`'s own `_default` annotation when present,
otherwise the `_default` annotation of `f`'s declared type; keys already
present in the value (null included) are never overwritten. -/
theorem C3_default_injection (tfields : List (String × FieldDef))
    (value : List (String × Value)) (n : String) (f : FieldDef)
    (hnd : (tfields.map Prod.fst).Nodup) (hmem : (n, f) ∈ tfields) :
    (hasKey n value = false →
      lookupVal n (applyDefaults tfields value) = fieldDefault f)
    ∧ (hasKey n value = true →
      lookupVal n (applyDefaults tfields value) = lookupVal n value)
    ∧ (∀ d, lookupVal "_default" f.annotations = some d → fieldDefault f = some d)
    ∧ (lookupVal "_default" f.annotations = none →
      fieldDefault f = lookupVal "_default" f.ftype.annotations) := by
  refine ⟨fun hmiss => applyDefaults_lookup_missing hnd hmem hmiss,
    fun hpres => applyDefaults_lookup_present hpres, ?_, ?_⟩
  · intro d hd
    unfold fieldDefault
    rw [hd]
  · intro hd
    unfold fieldDefault
    rw [hd]

open MergerFixtures in
theorem C3_witness :
    ((nestedFields.map Prod.fst).Nodup
      ∧ ("field1", (⟨strTypeRef, [("_default", Value.str "field1")]⟩ : FieldDef))
          ∈ nestedFields)
    ∧ ((hasKey "field1" [("field2", Value.str "ins1")] = false →
        lookupVal "field1"
          (applyDefaults nestedFields [("field2", Value.str "ins1")])
          = fieldDefault ⟨strTypeRef, [("_default", Value.str "field1")]⟩)
      ∧ (hasKey "field1" [("field2", Value.str "ins1")] = true →
        lookupVal "field1"
          (applyDefaults nestedFields [("field2", Value.str "ins1")])
          = lookupVal "field1" [("field2", Value.str "ins1")])
      ∧ (∀ d, lookupVal "_default"
            (FieldDef.annotations ⟨strTypeRef, [("_default", Value.str "field1")]⟩) = some d →
          fieldDefault ⟨strTypeRef, [("_default", Value.str "field1")]⟩ = some d)
      ∧ (lookupVal "_default"
            (FieldDef.annotations ⟨strTypeRef, [("_default", Value.str "field1")]⟩) = none →
          fieldDefault ⟨strTypeRef, [("_default", Value.str "field1")]⟩
            = lookupVal "_default"
              (TypeRef.annotations
                (FieldDef.ftype ⟨strTypeRef, [("_default", Value.str "field1")]⟩)))) :=
  ⟨⟨by decide, by decide⟩,
   C3_default_injection nestedFields [("field2", Value.str "ins1")] "field1"
     ⟨strTypeRef, [("_default", Value.str "field1")]⟩ (by decide) (by decide)⟩

/-- C4: every workspace error has severity `Error` when its cause is a parse
error, a merge error, or an unresolved-reference validation error, and
`Warning` for every other validation-error kind. -/
theorem C4_workspace_error_severity (st : WorkspaceState) (w : WorkspaceError)
    (hw : w ∈ getWorkspaceErrors st) :
    w.severity = match w.cause with
      | .parse _ => "Error"
      | .merge _ => "Error"
      | .validation ve => if ve.kind = .unresolvedReference then "Error" else "Warning" := by
  unfold getWorkspaceErrors at hw
  rcases List.mem_append.mp hw with h1 | hv
  · rcases List.mem_append.mp h1 with hp | hm
    · obtain ⟨pe, _, rfl⟩ := List.mem_map.mp hp
      rfl
    · obtain ⟨me, _, rfl⟩ := List.mem_map.mp hm
      rfl
  · obtain ⟨ve, _, rfl⟩ := List.mem_map.mp hv
    exact calculateValidationSeverity_eq ve

namespace WorkspaceFixtures

def veInvalid : ValidationError :=
  ⟨.invalidValueType, ⟨"salto", "base", "type", []⟩, "bad value", "Invalid value type"⟩

def stValidation : WorkspaceState :=
  { parsedBlueprints := []
    sourceMap := []
    elements := []
    errors := { parse := [], merge := [], validation := [veInvalid] } }

def wInvalid : WorkspaceError :=
  { sourceFragments := []
    error := "Invalid value type"
    severity := "Warning"
    cause := .validation veInvalid }

end WorkspaceFixtures

open WorkspaceFixtures in
theorem C4_witness :
    wInvalid.severity = match wInvalid.cause with
      | .parse _ => "Error"
      | .merge _ => "Error"
      | .validation ve => if ve.kind = .unresolvedReference then "Error" else "Warning" :=
  C4_workspace_error_severity stValidation wInvalid (by decide)

/-- C5: stringifying a merge error yields exactly
`Error merging <full_name>: <message>`, where `<full_name>` is the full name of
the offending ElemID carried by the error. -/
theorem C5_merge_error_string (e : MergeError) :
    e.toString = "Error merging " ++ e.elemID.getFullName ++ ": " ++ e.error :=
  rfl

namespace WorkspaceFixtures

/-- A config instance of the `salesforce` adapter. -/
def configInstance : Element :=
  .instanceElement ⟨"salesforce", "inst", "instance", ["_config"]⟩
    ⟨⟨"salesforce", "inst", "type", []⟩, []⟩ [] []

/-- A blueprint holding a single adapter config object, saved under a filename
that is not `credentials/salesforce.bp`. -/
def cexBlueprint : ParsedBlueprint :=
  { filename := "a.bp"
    buffer := "content"
    timestamp := none
    elements := [configInstance]
    errors := []
    sourceMap := [] }

def cexFlushState : WorkspaceFlushState :=
  { baseDir := "base"
    localStorage := "local"
    useCache := false
    parsedBlueprints := [("a.bp", cexBlueprint)]
    dirtyBlueprints := ["a.bp"] }

end WorkspaceFixtures

open WorkspaceFixtures in
/-- C6 counterexample: the dirty blueprint `a.bp` holds a single adapter
config object (its only element is a config of adapter `salesforce`), yet
`flush` writes it under `baseDir`, not under `localStorage` as the claim
states, because the source additionally requires the filename to be
`credentials/<adapter>.bp`. -/
theorem C6_counterexample :
    (cexFlushState.dirtyBlueprints = ["a.bp"]
      ∧ lookupVal "a.bp" cexFlushState.parsedBlueprints = some cexBlueprint
      ∧ cexBlueprint.elements.length = 1
      ∧ cexBlueprint.elements.map (fun e => e.elemID.isConfig) = [true])
    ∧ FileOp.writeFile (pathJoin "base" "a.bp") "content" ∈ flushFileOps cexFlushState
    ∧ FileOp.writeFile (pathJoin "local" "a.bp") "content" ∉ flushFileOps cexFlushState := by
  decide

/-- C6 (amended): after `flush`, every dirty filename absent from
`parsedBlueprints` has its file deleted under `baseDir`; every other dirty
filename has its buffer written — under `localStorage` when the blueprint's
elements are a single adapter config object *and* its filename is
`credentials/<adapter>.bp` (the source's `isNewConfig`), under `baseDir`
otherwise — and `dirtyBlueprints` is empty. -/
theorem C6_flush_amended (ws : WorkspaceFlushState) (filename : String)
    (hd : filename ∈ ws.dirtyBlueprints) :
    (match lookupVal filename ws.parsedBlueprints with
      | none => FileOp.rmFile (pathJoin ws.baseDir filename) ∈ flushFileOps ws
      | some bp => FileOp.writeFile
          (if isNewConfig bp then pathJoin ws.localStorage filename
            else pathJoin ws.baseDir filename)
          bp.buffer ∈ flushFileOps ws)
    ∧ (flush ws).1.dirtyBlueprints = [] := by
  constructor
  · rcases hb : lookupVal filename ws.parsedBlueprints with _ | bp
    · refine List.mem_flatMap.mpr ⟨filename, hd, ?_⟩
      rw [hb]
      exact List.mem_singleton.mpr rfl
    · refine List.mem_flatMap.mpr ⟨filename, hd, ?_⟩
      rw [hb]
      simp
  · rfl

open WorkspaceFixtures in
theorem C6_witness :
    (match lookupVal "a.bp" cexFlushState.parsedBlueprints with
      | none => FileOp.rmFile (pathJoin cexFlushState.baseDir "a.bp")
          ∈ flushFileOps cexFlushState
      | some bp => FileOp.writeFile
          (if isNewConfig bp then pathJoin cexFlushState.localStorage "a.bp"
            else pathJoin cexFlushState.baseDir "a.bp")
          bp.buffer ∈ flushFileOps cexFlushState)
    ∧ (flush cexFlushState).1.dirtyBlueprints = [] :=
  C6_flush_amended cexFlushState "a.bp" (by decide)

/-- C7: the source computes `Math.ceil((elapsed - elapsed) % 5)`, so the
in-progress formatter always prints `0s elapsed`; at 7000 ms after the start
the real elapsed time is 7 seconds (as the done-formatter reports), not 0. -/
theorem C7_action_in_progress_reports_zero :
    createActionInProgressOutput "salesforce.dev" "deploying" 0 7000
      = "salesforce.dev: Still deploying... (0s elapsed)"
    ∧ getElapsedTime 0 7000 = 7
    ∧ createItemDoneOutput "salesforce.dev" "Deployment" 0 7000
      = "salesforce.dev: Deployment completed after 7s" := by
  refine ⟨?_, by decide, ?_⟩ <;> decide

/-- C8: `getChangeElement` returns the change's `data.before` for a `remove`
action and the change's `data.after` for `add` and `modify` actions. -/
theorem C8_getChangeElement_spec :
    (∀ (T : Type) (b : T), (Change.remove b).action = "remove"
      ∧ getChangeElement (Change.remove b) = b)
    ∧ (∀ (T : Type) (a : T), (Change.add a).action = "add"
      ∧ getChangeElement (Change.add a) = a)
    ∧ (∀ (T : Type) (b a : T), (Change.modify b a).action = "modify"
      ∧ getChangeElement (Change.modify b a) = a) :=
  ⟨fun _ _ => ⟨rfl, rfl⟩, fun _ _ => ⟨rfl, rfl⟩, fun _ _ _ => ⟨rfl, rfl⟩⟩

/-- C9: `hasErrors()` returns true exactly when at least one of the parse,
merge, or validation error lists is non-empty. -/
theorem C9_hasErrors_iff (e : Errors) :
    e.hasErrors = true ↔ (e.parse ≠ [] ∨ e.merge ≠ [] ∨ e.validation ≠ []) := by
  simp [Errors.hasErrors, List.length_pos, or_assoc]

/-- C10: `getWorkspaceErrors` yields exactly one workspace error per
underlying error, with all parse errors first, then all merge errors, then all
validation errors, and its length is the sum of the three list lengths. -/
theorem C10_getWorkspaceErrors_structure (st : WorkspaceState) :
    ((getWorkspaceErrors st).map (·.cause)
      = st.errors.parse.map WorkspaceErrorCause.parse
        ++ st.errors.merge.map WorkspaceErrorCause.merge
        ++ st.errors.validation.map WorkspaceErrorCause.validation)
    ∧ (getWorkspaceErrors st).length
      = st.errors.parse.length + st.errors.merge.length + st.errors.validation.length := by
  constructor
  · simp only [getWorkspaceErrors, List.map_append, List.map_map]
    rfl
  · simp [getWorkspaceErrors, Nat.add_assoc]
